import Mathlib

/-!
Verification development for stac-vrt (stac_vrt.py, version 1.0.3).

The module builds a GDAL VRT mosaic descriptor from a list of STAC items.
This file gives a shallow embedding of the module: real-valued metadata is
modelled by rationals, Python dict accesses that may raise KeyError are
modelled by Option fields and an Except monad, and the rendered XML template
is modelled by a structured descriptor holding exactly the values that the
templates interpolate.  The external pyproj/rasterio collaborators (CRS
objects and bounding-box reprojection) are modelled by an EPSG code and an
abstract reprojection function passed as a parameter.
-/

namespace StacVrt

/-- Axis-aligned bounding box (left, bottom, right, top), modelling
rasterio.coords.BoundingBox. -/
structure BBox where
  left : ℚ
  bottom : ℚ
  right : ℚ
  top : ℚ
deriving DecidableEq

/-- One entry of an asset's eo:bands list; build_vrt only reads the name. -/
structure EoBand where
  name : String
deriving DecidableEq

/-- The image asset of a STAC item: its href and its eo:bands list. -/
structure Asset where
  href : String
  eoBands : List EoBand
deriving DecidableEq

/-- A STAC item, restricted to the fields stac_vrt.build_vrt reads.
Optional fields model dict keys that may be absent; reading an absent key
raises KeyError in Python and yields an error in the embedding. -/
structure StacItem where
  id : String
  bbox? : Option BBox
  epsg? : Option ℤ
  projBBox? : Option BBox
  projShape? : Option (ℤ × ℤ)
  projTransform? : Option (List ℚ)
  asset? : Option Asset
deriving DecidableEq

/-- The failures build_vrt can raise, as a tagged error type. -/
inductive BuildError where
  | emptyInput
  | missingCrs
  | keyError (key : String)
  | badTransform
  | lengthMismatch (which : String) (given expected : ℕ)
  | crsMismatch (itemId : String) (position : ℕ) (itemCode crsCode : ℤ)
  | indexError
  | transformNotInvertible
deriving DecidableEq

/-- The message text attached to each error, mirroring the format strings of
stac_vrt.py (lines 166, 172-175, 189-192, 198-201, 221-223). -/
def BuildError.message : BuildError → String
  | .emptyInput => "Must provide at least one stac item to build_vrt."
  | .missingCrs =>
      "If crs is not provided then it should be present in the first STAC items proj:epsg field."
  | .keyError key => "KeyError: " ++ key
  | .badTransform => "affine transform needs at least six coefficients"
  | .lengthMismatch which given expected =>
      "Number of user-provided " ++ which ++ " does not match the number of stac_items (" ++
        toString given ++ " != " ++ toString expected ++ ")"
  | .crsMismatch itemId position itemCode crsCode =>
      "STAC item " ++ itemId ++ " (position " ++ toString position ++
        ") does not have the same CRS. " ++ toString itemCode ++ " != " ++ toString crsCode
  | .indexError => "IndexError: list index out of range"
  | .transformNotInvertible => "TransformNotInvertibleError"

/-- An affine.Affine transform: coefficients (a b c d e f) mapping pixel
coordinates (col, row) to x = a*col + b*row + c and y = d*col + e*row + f. -/
structure Affine where
  a : ℚ
  b : ℚ
  c : ℚ
  d : ℚ
  e : ℚ
  f : ℚ
deriving DecidableEq

/-- Apply the transform to a point, as affine.Affine.__mul__ on a pair. -/
def Affine.app (t : Affine) (p : ℚ × ℚ) : ℚ × ℚ :=
  (t.a * p.1 + t.b * p.2 + t.c, t.d * p.1 + t.e * p.2 + t.f)

/-- Determinant of the linear part, as affine.Affine.determinant. -/
def Affine.det (t : Affine) : ℚ := t.a * t.e - t.b * t.d

/-- The inverse transform, with the coefficients computed exactly as in
affine.Affine.__invert__.  Inverting a degenerate transform raises in the
library; build_vrt therefore checks the determinant before using this. -/
def Affine.inv (t : Affine) : Affine :=
  { a := t.e / t.det, b := -t.b / t.det, c := (t.b * t.f - t.c * t.e) / t.det
  , d := -t.d / t.det, e := t.a / t.det, f := (t.c * t.d - t.a * t.f) / t.det }

/-- Python int() applied to a rational: truncation toward zero. -/
def pyInt (q : ℚ) : ℤ := q.num.tdiv q.den

/-- Python `x or d` for an optional number x: d when x is None or zero
(falsy), x otherwise.  Used at stac_vrt.py lines 183-184. -/
def pyOr (x? : Option ℚ) (dflt : ℚ) : ℚ :=
  match x? with
  | none => dflt
  | some x => if x = 0 then dflt else x

/-- Python str.startswith, modelled on the character sequences. -/
def pyStartsWith (s p : String) : Bool := p.toList.isPrefixOf s.toList

/-- Evaluate a fallible function over a list left to right, stopping at the
first error: the semantics of a Python loop or comprehension whose body may
raise. -/
def mapME {α β : Type} (f : α → Except BuildError β) : List α → Except BuildError (List β)
  | [] => .ok []
  | x :: xs =>
    match f x with
    | .error err => .error err
    | .ok y =>
      match mapME f xs with
      | .error err => .error err
      | .ok ys => .ok (y :: ys)

/-- Read an item's proj:bbox, raising KeyError when absent
(stac_vrt.py line 22). -/
def projBBoxOf (it : StacItem) : Except BuildError BBox :=
  match it.projBBox? with
  | some b => .ok b
  | none => .error (.keyError "proj:bbox")

/-- Read an item's native bbox and reproject it through the external
transform_bounds primitive (stac_vrt.py lines 28-34). -/
def nativeBBoxOf (reproj : BBox → BBox) (it : StacItem) : Except BuildError BBox :=
  match it.bbox? with
  | some b => .ok (reproj b)
  | none => .error (.keyError "bbox")

/-- stac_vrt._build_bboxes: the branch between the proj:bbox path and the
reprojection path is chosen once, from the first item only (line 18). -/
def build_bboxes (reproj : BBox → BBox) (stacItems : List StacItem) :
    Except BuildError (List BBox) :=
  match stacItems with
  | [] => .error .emptyInput
  | i0 :: _ =>
    if (i0.projBBox?).isSome then mapME projBBoxOf stacItems
    else mapME (nativeBBoxOf reproj) stacItems

/-- Minimum of a nonempty collection given as head plus tail. -/
def qmin (x : ℚ) (xs : List ℚ) : ℚ := xs.foldl min x

/-- Maximum of a nonempty collection given as head plus tail. -/
def qmax (x : ℚ) (xs : List ℚ) : ℚ := xs.foldl max x

/-- stac_vrt._build_bbox: componentwise min of lefts and bottoms and max of
rights and tops over the list of boxes (numpy min/max along axis 0).  The
empty case is unreachable from build_vrt. -/
def build_bbox : List BBox → BBox
  | [] => { left := 0, bottom := 0, right := 0, top := 0 }
  | b :: bs =>
    { left := qmin b.left (bs.map BBox.left)
    , bottom := qmin b.bottom (bs.map BBox.bottom)
    , right := qmax b.right (bs.map BBox.right)
    , top := qmax b.top (bs.map BBox.top) }

/-- stac_vrt.build_transform: north-up transform from the output bounding
box and the resolution. -/
def build_transform (bbox : BBox) (resX resY : ℚ) : Affine :=
  { a := resX, b := 0, c := bbox.left, d := 0, e := -resY, f := bbox.top }

/-- Lines 168-177: the output CRS is the supplied one, else the first items
proj:epsg, else a KeyError wrapped in an explanatory message. -/
def resolveCrs (crs? : Option ℤ) (i0 : StacItem) : Except BuildError ℤ :=
  match crs? with
  | some c => .ok c
  | none =>
    match i0.epsg? with
    | some c => .ok c
    | none => .error .missingCrs

/-- Lines 179-184: when res_x or res_y is None the first items
proj:transform is read (first six coefficients) and each missing or falsy
resolution is replaced by a = trn[0] respectively abs(e) = abs(trn[4]). -/
def resolveRes (resX? resY? : Option ℚ) (i0 : StacItem) : Except BuildError (ℚ × ℚ) :=
  match resX?, resY? with
  | some rx, some ry => .ok (rx, ry)
  | _, _ =>
    match i0.projTransform? with
    | none => .error (.keyError "proj:transform")
    | some trn =>
      match trn with
      | t0 :: _ :: _ :: _ :: t4 :: _ :: _ => .ok (pyOr resX? t0, pyOr resY? |t4|)
      | _ => .error .badTransform

/-- Read an item's proj:shape, raising KeyError when absent (line 195). -/
def shapeOf (it : StacItem) : Except BuildError (ℤ × ℤ) :=
  match it.projShape? with
  | some s => .ok s
  | none => .error (.keyError "proj:shape")

/-- Lines 194-201: derive shapes from proj:shape, or validate the length of
a user-supplied list. -/
def resolveShapes (shapes? : Option (List (ℤ × ℤ))) (stacItems : List StacItem) :
    Except BuildError (List (ℤ × ℤ)) :=
  match shapes? with
  | none => mapME shapeOf stacItems
  | some ss =>
    if ss.length ≠ stacItems.length then
      .error (.lengthMismatch "shapes" ss.length stacItems.length)
    else .ok ss

/-- Lines 186-192: derive bboxes via _build_bboxes, or validate the length
of a user-supplied list. -/
def resolveBBoxes (reproj : BBox → BBox) (bboxes? : Option (List BBox))
    (stacItems : List StacItem) : Except BuildError (List BBox) :=
  match bboxes? with
  | none => build_bboxes reproj stacItems
  | some bs =>
    if bs.length ≠ stacItems.length then
      .error (.lengthMismatch "bboxes" bs.length stacItems.length)
    else .ok bs

/-- Line 225 plus the per-band list indexing of line 232: read the items
image asset (KeyError when absent) and fail with IndexError when the item
has more bands than the first item (simple_sources has nBands slots). -/
def checkAsset (nBands : ℕ) (it : StacItem) : Except BuildError Asset :=
  match it.asset? with
  | none => .error (.keyError "image")
  | some image =>
    if nBands < image.eoBands.length then .error .indexError else .ok image

/-- The test at line 220: `image_crs and image_crs != crs_code`.  Returns
the offending declared code, if any; a declared code of zero is falsy in
Python and is silently accepted. -/
def crsBad (crsCode : ℤ) (it : StacItem) : Option ℤ :=
  match it.epsg? with
  | some code => if code ≠ 0 ∧ code ≠ crsCode then some code else none
  | none => none

/-- The enumerated loop of lines 216-244, with the per-iteration failure
modes in program order: CRS mismatch, missing image asset, band index out
of range.  On success it returns, per item, the asset together with the
bounding box and the (height, width) shape used to place it. -/
def checkItems (crsCode : ℤ) (nBands : ℕ) :
    ℕ → List (StacItem × BBox × (ℤ × ℤ)) → Except BuildError (List (Asset × BBox × (ℤ × ℤ)))
  | _, [] => .ok []
  | i, (it, bbox, sh) :: rest =>
    match crsBad crsCode it with
    | some code => .error (.crsMismatch it.id i code crsCode)
    | none =>
      match checkAsset nBands it with
      | .error err => .error err
      | .ok image =>
        match checkItems crsCode nBands (i + 1) rest with
        | .error err => .error err
        | .ok tail => .ok ((image, bbox, sh) :: tail)

/-- One SimpleSource block of the emitted VRT: the values interpolated into
_simple_source_template. -/
structure SimpleSource where
  url : String
  bandNumber : ℕ
  width : ℤ
  height : ℤ
  dataType : String
  blockWidth : ℤ
  blockHeight : ℤ
  xOff : ℤ
  yOff : ℤ
deriving DecidableEq

/-- Lines 226-243: the record appended for one item and one band.  The url
gains the GDAL /vsicurl/ stream marker when prefixing is on and the href
starts with the literal text http; the destination offsets are the inverse
output transform applied to the boxes top left corner, truncated by int(). -/
def mkSource (prefixing : Bool) (dataType : String) (blockW blockH : ℤ) (invT : Affine)
    (image : Asset) (bbox : BBox) (sh : ℤ × ℤ) (bandNumber : ℕ) : SimpleSource :=
  let url := if prefixing && pyStartsWith image.href "http" then "/vsicurl/" ++ image.href
             else image.href
  let off := invT.app (bbox.left, bbox.top)
  { url := url, bandNumber := bandNumber, width := sh.2, height := sh.1
  , dataType := dataType, blockWidth := blockW, blockHeight := blockH
  , xOff := pyInt off.1, yOff := pyInt off.2 }

/-- The contents of simple_sources[bandIdx] after the loop: one record per
item whose asset has more than bandIdx bands, in item order. -/
def bandSources (prefixing : Bool) (dataType : String) (blockW blockH : ℤ) (invT : Affine)
    (checked : List (Asset × BBox × (ℤ × ℤ))) (bandIdx : ℕ) : List SimpleSource :=
  checked.filterMap fun entry =>
    if bandIdx < entry.1.eoBands.length then
      some (mkSource prefixing dataType blockW blockH invT entry.1 entry.2.1 entry.2.2 (bandIdx + 1))
    else none

/-- One VRTRasterBand block: the values interpolated into
_raster_band_template, with colorInterp holding the band label text. -/
structure RasterBand where
  dataType : String
  bandNumber : ℕ
  colorInterp : String
  sources : List SimpleSource
deriving DecidableEq

/-- Lines 246-257: one RasterBand per entry of the loop variable images
eo:bands (the asset left in scope by the item loop), numbering bands from
one and pairing band k with simple_sources[k - 1]. -/
def renderBands (dataType : String) (sources : List (List SimpleSource)) :
    ℕ → List EoBand → List RasterBand
  | _, [] => []
  | k, bd :: rest =>
    { dataType := dataType, bandNumber := k + 1, colorInterp := bd.name
    , sources := sources.getD k [] } :: renderBands dataType sources (k + 1) rest

/-- The whole emitted VRT document: the values interpolated into
_vrt_template.  srs holds the EPSG code whose WKT rendering the Python code
delegates to pyproj. -/
structure VRTDataset where
  rasterXSize : ℤ
  rasterYSize : ℤ
  srs : ℤ
  geoTransform : Affine
  rasterBands : List RasterBand
deriving DecidableEq

/-- Lines 246-266 on the success path: the descriptor emitted once all the
checks have passed, with the band blocks rendered from the asset that the
loop variable image holds after the item loop (the last items asset). -/
def mkDataset (crsCode : ℤ) (resX resY : ℚ) (bboxes : List BBox) (dataType : String)
    (blockW blockH : ℤ) (prefixing : Bool) (image0 : Asset)
    (checked : List (Asset × BBox × (ℤ × ℤ))) : VRTDataset :=
  let ob := build_bbox bboxes
  let outT := build_transform ob resX resY
  let invT := outT.inv
  let dims := invT.app (ob.right, ob.bottom)
  let lastImage := checked.foldl (fun _ entry => entry.1) image0
  let sources := (List.range image0.eoBands.length).map
    (bandSources prefixing dataType blockW blockH invT checked)
  { rasterXSize := pyInt dims.1, rasterYSize := pyInt dims.2
  , srs := crsCode, geoTransform := outT
  , rasterBands := renderBands dataType sources 0 lastImage.eoBands }

/-- Lines 203-267: union the boxes, build and invert the output transform
(the affine library raises on a degenerate transform), truncate the output
dimensions, run the item loop and render the band blocks. -/
def assemble (stacItems : List StacItem) (i0 : StacItem) (crsCode : ℤ) (resX resY : ℚ)
    (bboxes : List BBox) (shapes : List (ℤ × ℤ)) (dataType : String) (blockW blockH : ℤ)
    (prefixing : Bool) : Except BuildError VRTDataset :=
  let ob := build_bbox bboxes
  let outT := build_transform ob resX resY
  if outT.det = 0 then .error .transformNotInvertible
  else
    match i0.asset? with
    | none => .error (.keyError "image")
    | some image0 =>
      match checkItems crsCode image0.eoBands.length 0 (stacItems.zip (bboxes.zip shapes)) with
      | .error err => .error err
      | .ok checked =>
        .ok (mkDataset crsCode resX resY bboxes dataType blockW blockH prefixing image0 checked)

deriving instance DecidableEq for Except

/-- stac_vrt.build_vrt.  reproj models rasterio.warp.transform_bounds from
epsg:4326 into the resolved CRS, indexed by the EPSG code of the target. -/
def build_vrt (reproj : ℤ → BBox → BBox) (stacItems : List StacItem)
    (crs? : Option ℤ) (resX? resY? : Option ℚ)
    (shapes? : Option (List (ℤ × ℤ))) (bboxes? : Option (List BBox))
    (dataType : String) (blockW blockH : ℤ) (prefixing : Bool) :
    Except BuildError VRTDataset :=
  match stacItems with
  | [] => .error .emptyInput
  | i0 :: rest =>
    match resolveCrs crs? i0 with
    | .error err => .error err
    | .ok crsCode =>
      match resolveRes resX? resY? i0 with
      | .error err => .error err
      | .ok res =>
        match resolveBBoxes (reproj crsCode) bboxes? (i0 :: rest) with
        | .error err => .error err
        | .ok bboxes =>
          match resolveShapes shapes? (i0 :: rest) with
          | .error err => .error err
          | .ok shapes =>
            assemble (i0 :: rest) i0 crsCode res.1 res.2 bboxes shapes dataType
              blockW blockH prefixing

/-- Follows the spec words of section 4.1, for comparison with the code
function build_bboxes: for each item, if it carries an already-projected
bounding box, use it verbatim; otherwise reproject its native bounding box
into the resolved CRS.  The choice is made independently per item. -/
def specPerItemBBoxes (reproj : BBox → BBox) (stacItems : List StacItem) :
    Except BuildError (List BBox) :=
  match stacItems with
  | [] => .error .emptyInput
  | _ :: _ =>
    mapME (fun it =>
      match it.projBBox? with
      | some b => .ok b
      | none => nativeBBoxOf reproj it) stacItems

/-- Follows the spec words of section 4.4: a source URL that begins with an
HTTP(S) scheme. -/
def hasHttpScheme (url : String) : Bool :=
  pyStartsWith url "http://" || pyStartsWith url "https://"

/-- Agreement on every item field that build_vrt reads when crs, res_x,
res_y, bboxes and shapes are all supplied: the id, the declared CRS code
and the image asset.  Two items related by obsEq may differ arbitrarily in
bbox, proj:bbox, proj:shape and proj:transform. -/
def obsEq (x y : StacItem) : Prop :=
  x.id = y.id ∧ x.epsg? = y.epsg? ∧ x.asset? = y.asset?

/-! ### Arithmetic helper lemmas -/

theorem pyInt_eq_floor {q : ℚ} (h : 0 ≤ q) : pyInt q = ⌊q⌋ := by
  rw [pyInt, Rat.floor_def, Int.tdiv_eq_ediv (Rat.num_nonneg.mpr h) (by exact_mod_cast Nat.zero_le q.den)]

theorem pyInt_nonneg {q : ℚ} (h : 0 ≤ q) : 0 ≤ pyInt q := by
  rw [pyInt_eq_floor h]
  exact Int.floor_nonneg.mpr h

theorem one_le_pyInt {q : ℚ} (h : 1 ≤ q) : 1 ≤ pyInt q := by
  rw [pyInt_eq_floor (le_trans zero_le_one h)]
  exact Int.le_floor.mpr (by exact_mod_cast h)

theorem pyInt_le {q : ℚ} (h : 0 ≤ q) : (pyInt q : ℚ) ≤ q := by
  rw [pyInt_eq_floor h]
  exact Int.floor_le q

theorem lt_pyInt_add_one {q : ℚ} (h : 0 ≤ q) : q < pyInt q + 1 := by
  rw [pyInt_eq_floor h]
  exact Int.lt_floor_add_one q

theorem qmin_le_base (x : ℚ) (xs : List ℚ) : qmin x xs ≤ x := by
  induction xs generalizing x with
  | nil => simp [qmin]
  | cons y ys ih =>
    have h1 : qmin (min x y) ys ≤ min x y := ih (min x y)
    exact le_trans h1 (min_le_left x y)

theorem qmin_le_mem (x : ℚ) (xs : List ℚ) (y : ℚ) (hy : y ∈ xs) : qmin x xs ≤ y := by
  induction xs generalizing x with
  | nil => cases hy
  | cons z zs ih =>
    rcases List.mem_cons.mp hy with h | h
    · subst h
      exact le_trans (qmin_le_base (min x y) zs) (min_le_right x y)
    · exact ih (min x z) h

theorem le_qmax_base (x : ℚ) (xs : List ℚ) : x ≤ qmax x xs := by
  induction xs generalizing x with
  | nil => simp [qmax]
  | cons y ys ih =>
    have h1 : max x y ≤ qmax (max x y) ys := ih (max x y)
    exact le_trans (le_max_left x y) h1

theorem le_qmax_mem (x : ℚ) (xs : List ℚ) (y : ℚ) (hy : y ∈ xs) : y ≤ qmax x xs := by
  induction xs generalizing x with
  | nil => cases hy
  | cons z zs ih =>
    rcases List.mem_cons.mp hy with h | h
    · subst h
      exact le_trans (le_max_right x y) (le_qmax_base (max x y) zs)
    · exact ih (max x z) h

theorem build_bbox_left_le {bs : List BBox} {bx : BBox} (h : bx ∈ bs) :
    (build_bbox bs).left ≤ bx.left := by
  match bs with
  | [] => cases h
  | b :: rest =>
    rcases List.mem_cons.mp h with h1 | h1
    · subst h1
      exact qmin_le_base _ _
    · exact qmin_le_mem _ _ _ (List.mem_map_of_mem BBox.left h1)

theorem build_bbox_top_ge {bs : List BBox} {bx : BBox} (h : bx ∈ bs) :
    bx.top ≤ (build_bbox bs).top := by
  match bs with
  | [] => cases h
  | b :: rest =>
    rcases List.mem_cons.mp h with h1 | h1
    · subst h1
      exact le_qmax_base _ _
    · exact le_qmax_mem _ _ _ (List.mem_map_of_mem BBox.top h1)

theorem build_transform_det (ob : BBox) (rx ry : ℚ) :
    (build_transform ob rx ry).det = -(rx * ry) := by
  simp [build_transform, Affine.det]

theorem build_transform_inv_app (ob : BBox) (rx ry : ℚ) (hrx : rx ≠ 0) (hry : ry ≠ 0)
    (p : ℚ × ℚ) :
    (build_transform ob rx ry).inv.app p = ((p.1 - ob.left) / rx, (ob.top - p.2) / ry) := by
  simp only [build_transform, Affine.inv, Affine.app, Affine.det]
  have hD : rx * -ry - 0 * 0 ≠ 0 := by
    simp only [zero_mul, sub_zero, mul_neg, ne_eq, neg_eq_zero]
    exact fun hc => (mul_ne_zero hrx hry) hc
  rw [Prod.mk.injEq]
  refine ⟨?_, ?_⟩
  · field_simp
    ring
  · field_simp
    ring

theorem build_transform_app (ob : BBox) (rx ry : ℚ) (p : ℚ × ℚ) :
    (build_transform ob rx ry).app p = (rx * p.1 + ob.left, -ry * p.2 + ob.top) := by
  simp [build_transform, Affine.app]

/-! ### mapME and list helper lemmas -/

theorem mapME_ok_length {α β : Type} {f : α → Except BuildError β} :
    ∀ {xs : List α} {ys : List β}, mapME f xs = .ok ys → ys.length = xs.length := by
  intro xs
  induction xs with
  | nil => intro ys h; simp [mapME] at h; simp [← h]
  | cons x xs ih =>
    intro ys h
    rw [mapME] at h
    cases hf : f x with
    | error err => rw [hf] at h; cases h
    | ok y =>
      rw [hf] at h
      cases hm : mapME f xs with
      | error err => rw [hm] at h; cases h
      | ok ys2 =>
        rw [hm] at h
        cases h
        simp [ih hm]

theorem mapME_ok_zip {α β : Type} {f : α → Except BuildError β} :
    ∀ {xs : List α} {ys : List β}, mapME f xs = .ok ys →
      ∀ p ∈ xs.zip ys, f p.1 = .ok p.2 := by
  intro xs
  induction xs with
  | nil => intro ys h p hp; simp [mapME] at h; subst h; cases hp
  | cons x xs ih =>
    intro ys h p hp
    rw [mapME] at h
    cases hf : f x with
    | error err => rw [hf] at h; cases h
    | ok y =>
      rw [hf] at h
      cases hm : mapME f xs with
      | error err => rw [hm] at h; cases h
      | ok ys2 =>
        rw [hm] at h
        cases h
        rcases List.mem_cons.mp hp with h1 | h1
        · subst h1; exact hf
        · exact ih hm p h1

theorem mapME_map {α β : Type} {f : α → Except BuildError β} {g : α → β} :
    ∀ {xs : List α}, (∀ x ∈ xs, f x = .ok (g x)) → mapME f xs = .ok (xs.map g) := by
  intro xs
  induction xs with
  | nil => intro _; simp [mapME]
  | cons x xs ih =>
    intro h
    rw [mapME, h x (List.mem_cons_self x xs), ih (fun y hy => h y (List.mem_cons_of_mem x hy))]
    simp

theorem mapME_ok_mem {α β : Type} {f : α → Except BuildError β} :
    ∀ {xs : List α} {ys : List β}, mapME f xs = .ok ys →
      ∀ y ∈ ys, ∃ x ∈ xs, f x = .ok y := by
  intro xs
  induction xs with
  | nil => intro ys h y hy; simp [mapME] at h; subst h; cases hy
  | cons x xs ih =>
    intro ys h y hy
    rw [mapME] at h
    cases hf : f x with
    | error err => rw [hf] at h; cases h
    | ok y0 =>
      rw [hf] at h
      cases hm : mapME f xs with
      | error err => rw [hm] at h; cases h
      | ok ys2 =>
        rw [hm] at h
        cases h
        rcases List.mem_cons.mp hy with h1 | h1
        · subst h1; exact ⟨x, List.mem_cons_self x xs, hf⟩
        · rcases ih hm y h1 with ⟨x2, hx2, hfx2⟩
          exact ⟨x2, List.mem_cons_of_mem x hx2, hfx2⟩

/-! ### Lemmas about the item-loop checks -/

theorem crsBad_eq_some {crsCode : ℤ} {it : StacItem} {code : ℤ}
    (h : crsBad crsCode it = some code) :
    it.epsg? = some code ∧ code ≠ 0 ∧ code ≠ crsCode := by
  unfold crsBad at h
  cases he : it.epsg? with
  | none => rw [he] at h; cases h
  | some c =>
    rw [he] at h
    change (if c ≠ 0 ∧ c ≠ crsCode then some c else none) = some code at h
    by_cases hc : c ≠ 0 ∧ c ≠ crsCode
    · rw [if_pos hc] at h; cases h; exact ⟨rfl, hc⟩
    · rw [if_neg hc] at h; cases h

theorem crsBad_none_of_agree {crsCode : ℤ} {it : StacItem}
    (h : it.epsg? = none ∨ it.epsg? = some crsCode) : crsBad crsCode it = none := by
  unfold crsBad
  rcases h with h | h <;> rw [h]
  simp

theorem crsBad_some_of {crsCode code : ℤ} {it : StacItem}
    (h : it.epsg? = some code) (h0 : code ≠ 0) (hc : code ≠ crsCode) :
    crsBad crsCode it = some code := by
  unfold crsBad
  rw [h]
  change (if code ≠ 0 ∧ code ≠ crsCode then some code else none) = some code
  rw [if_pos ⟨h0, hc⟩]

theorem checkAsset_ok {nBands : ℕ} {it : StacItem} {image : Asset}
    (h : checkAsset nBands it = .ok image) :
    it.asset? = some image ∧ image.eoBands.length ≤ nBands := by
  unfold checkAsset at h
  cases ha : it.asset? with
  | none => rw [ha] at h; cases h
  | some im =>
    rw [ha] at h
    change (if nBands < im.eoBands.length then Except.error BuildError.indexError
      else Except.ok im) = Except.ok image at h
    by_cases hlt : nBands < im.eoBands.length
    · rw [if_pos hlt] at h; cases h
    · rw [if_neg hlt] at h; cases h; exact ⟨rfl, Nat.le_of_not_lt hlt⟩

theorem checkAsset_of {nBands : ℕ} {it : StacItem} {a : Asset}
    (ha : it.asset? = some a) (hle : a.eoBands.length ≤ nBands) :
    checkAsset nBands it = .ok a := by
  unfold checkAsset
  rw [ha]
  change (if nBands < a.eoBands.length then Except.error BuildError.indexError
    else Except.ok a) = Except.ok a
  rw [if_neg (Nat.not_lt.mpr hle)]

theorem checkItems_ok_mem {crsCode : ℤ} {nBands : ℕ} :
    ∀ {i : ℕ} {zs : List (StacItem × BBox × (ℤ × ℤ))} {cs : List (Asset × BBox × (ℤ × ℤ))},
      checkItems crsCode nBands i zs = .ok cs →
      ∀ e ∈ cs, ∃ z ∈ zs, z.1.asset? = some e.1 ∧ e.2 = z.2 ∧ e.1.eoBands.length ≤ nBands := by
  intro i zs
  induction zs generalizing i with
  | nil => intro cs h e he; rw [checkItems] at h; cases h; cases he
  | cons z rest ih =>
    intro cs h e he
    obtain ⟨it, bbox, sh⟩ := z
    rw [checkItems] at h
    cases hcb : crsBad crsCode it with
    | some code => rw [hcb] at h; cases h
    | none =>
      rw [hcb] at h
      cases hca : checkAsset nBands it with
      | error err => rw [hca] at h; cases h
      | ok image =>
        rw [hca] at h
        cases hci : checkItems crsCode nBands (i + 1) rest with
        | error err => rw [hci] at h; cases h
        | ok tail =>
          rw [hci] at h
          cases h
          obtain ⟨hass, hlen⟩ := checkAsset_ok hca
          rcases List.mem_cons.mp he with h1 | h1
          · subst h1
            exact ⟨(it, bbox, sh), List.mem_cons_self _ _, hass, rfl, hlen⟩
          · rcases ih hci e h1 with ⟨z2, hz2, hp⟩
            exact ⟨z2, List.mem_cons_of_mem _ hz2, hp⟩

theorem checkItems_ok_of {crsCode : ℤ} {nBands : ℕ} :
    ∀ {zs : List (StacItem × BBox × (ℤ × ℤ))} (i : ℕ),
      (∀ z ∈ zs, crsBad crsCode z.1 = none ∧
        ∃ a, z.1.asset? = some a ∧ a.eoBands.length ≤ nBands) →
      ∃ cs, checkItems crsCode nBands i zs = .ok cs := by
  intro zs
  induction zs with
  | nil => intro i _; exact ⟨[], rfl⟩
  | cons z rest ih =>
    intro i h
    obtain ⟨it, bbox, sh⟩ := z
    obtain ⟨hcb, a, ha, hle⟩ := h _ (List.mem_cons_self _ _)
    obtain ⟨tail, htail⟩ := ih (i + 1) (fun w hw => h w (List.mem_cons_of_mem _ hw))
    refine ⟨(a, bbox, sh) :: tail, ?_⟩
    rw [checkItems, hcb, checkAsset_of ha hle, htail]

theorem checkItems_finds_mismatch {crsCode : ℤ} {nBands : ℕ} :
    ∀ {zs : List (StacItem × BBox × (ℤ × ℤ))} (i : ℕ),
      (∀ z ∈ zs, ∃ a, z.1.asset? = some a ∧ a.eoBands.length ≤ nBands) →
      (∃ z ∈ zs, crsBad crsCode z.1 ≠ none) →
      ∃ j z code, zs[j]? = some z ∧ crsBad crsCode z.1 = some code ∧
        checkItems crsCode nBands i zs = .error (.crsMismatch z.1.id (i + j) code crsCode) := by
  intro zs
  induction zs with
  | nil =>
    intro i _ hex
    rcases hex with ⟨z, hz, _⟩
    cases hz
  | cons z rest ih =>
    intro i hassets hex
    obtain ⟨it, bbox, sh⟩ := z
    cases hcb : crsBad crsCode (it, bbox, sh).1 with
    | some code =>
      refine ⟨0, (it, bbox, sh), code, by simp, hcb, ?_⟩
      rw [checkItems, hcb]
      simp
    | none =>
      have hrest : ∃ w ∈ rest, crsBad crsCode w.1 ≠ none := by
        rcases hex with ⟨w, hw, hbad⟩
        rcases List.mem_cons.mp hw with h1 | h1
        · subst h1; exact absurd hcb hbad
        · exact ⟨w, h1, hbad⟩
      obtain ⟨a, ha, hle⟩ := hassets _ (List.mem_cons_self _ _)
      obtain ⟨j, w, code, hj, hwbad, hcheck⟩ :=
        ih (i + 1) (fun w hw => hassets w (List.mem_cons_of_mem _ hw)) hrest
      refine ⟨j + 1, w, code, by simpa using hj, hwbad, ?_⟩
      rw [checkItems, hcb, checkAsset_of ha hle, hcheck]
      have : i + 1 + j = i + (j + 1) := by omega
      rw [this]

theorem checkItems_ok_assets {crsCode : ℤ} {nBands : ℕ} :
    ∀ {i : ℕ} {zs : List (StacItem × BBox × (ℤ × ℤ))} {cs : List (Asset × BBox × (ℤ × ℤ))},
      checkItems crsCode nBands i zs = .ok cs →
      cs.map (fun e => some e.1) = zs.map (fun z => z.1.asset?) := by
  intro i zs
  induction zs generalizing i with
  | nil => intro cs h; rw [checkItems] at h; cases h; rfl
  | cons z rest ih =>
    intro cs h
    obtain ⟨it, bbox, sh⟩ := z
    rw [checkItems] at h
    cases hcb : crsBad crsCode it with
    | some code => rw [hcb] at h; cases h
    | none =>
      rw [hcb] at h
      cases hca : checkAsset nBands it with
      | error err => rw [hca] at h; cases h
      | ok image =>
        rw [hca] at h
        cases hci : checkItems crsCode nBands (i + 1) rest with
        | error err => rw [hci] at h; cases h
        | ok tail =>
          rw [hci] at h
          cases h
          simp only [List.map_cons, (checkAsset_ok hca).1, ih hci]

theorem foldl_const_getLast {γ δ : Type} (g : γ → δ) :
    ∀ {cs : List γ} {el : γ}, cs.getLast? = some el →
      ∀ init : δ, cs.foldl (fun _ e => g e) init = g el := by
  intro cs
  induction cs with
  | nil => intro el h; cases h
  | cons c rest ih =>
    intro el h init
    cases rest with
    | nil => cases h; rfl
    | cons r rs =>
      rw [List.getLast?_cons_cons] at h
      rw [List.foldl_cons]
      exact ih h (g c)

theorem zip_getLast? {α β : Type} :
    ∀ {xs : List α} {ys : List β} {x : α} {y : β}, xs.length = ys.length →
      xs.getLast? = some x → ys.getLast? = some y → (xs.zip ys).getLast? = some (x, y) := by
  intro xs
  induction xs with
  | nil => intro ys x y _ hx; cases hx
  | cons a as ih =>
    intro ys x y hlen hx hy
    cases ys with
    | nil => cases hlen
    | cons b bs =>
      cases as with
      | nil =>
        cases bs with
        | nil =>
          simp only [List.getLast?_singleton] at hx hy
          cases hx; cases hy
          rfl
        | cons b2 bs2 => simp at hlen
      | cons a2 as2 =>
        cases bs with
        | nil => simp at hlen
        | cons b2 bs2 =>
          rw [List.getLast?_cons_cons] at hx hy
          have hlen2 : (a2 :: as2).length = (b2 :: bs2).length := by
            simpa using hlen
          have := ih hlen2 hx hy
          simpa [List.zip_cons_cons, List.getLast?_cons_cons] using this

/-! ### Lemmas about band rendering -/

theorem renderBands_colorInterp (dataType : String) (sources : List (List SimpleSource)) :
    ∀ (k : ℕ) (bds : List EoBand),
      (renderBands dataType sources k bds).map RasterBand.colorInterp = bds.map EoBand.name := by
  intro k bds
  induction bds generalizing k with
  | nil => rfl
  | cons bd rest ih => simp [renderBands, ih]

theorem renderBands_mem {dataType : String} {sources : List (List SimpleSource)} :
    ∀ {k : ℕ} {bds : List EoBand} {band : RasterBand},
      band ∈ renderBands dataType sources k bds →
      ∃ j, band.sources = sources.getD j [] := by
  intro k bds
  induction bds generalizing k with
  | nil => intro band h; cases h
  | cons bd rest ih =>
    intro band h
    rcases List.mem_cons.mp h with h1 | h1
    · exact ⟨k, by rw [h1]⟩
    · exact ih h1

theorem range_map_getD {γ : Type} (f : ℕ → List γ) (n j : ℕ) :
    ((List.range n).map f).getD j [] = if j < n then f j else [] := by
  rcases Nat.lt_or_ge j n with h | h
  · rw [if_pos h]
    simp [List.getElem?_map, List.getElem?_range h]
  · rw [if_neg (Nat.not_lt.mpr h)]
    rw [List.getD_eq_getElem?_getD, List.getElem?_eq_none (by simpa using h)]
    rfl

/-! ### Length lemmas for the resolution stages -/

theorem build_bboxes_length {reproj : BBox → BBox} {stacItems : List StacItem}
    {bs : List BBox} (h : build_bboxes reproj stacItems = .ok bs) :
    bs.length = stacItems.length := by
  unfold build_bboxes at h
  cases stacItems with
  | nil => cases h
  | cons i0 rest =>
    change (if (i0.projBBox?).isSome then mapME projBBoxOf (i0 :: rest)
      else mapME (nativeBBoxOf reproj) (i0 :: rest)) = Except.ok bs at h
    by_cases hp : (i0.projBBox?).isSome
    · rw [if_pos hp] at h
      exact mapME_ok_length h
    · rw [if_neg hp] at h
      exact mapME_ok_length h

theorem resolveBBoxes_length {reproj : BBox → BBox} {bboxes? : Option (List BBox)}
    {stacItems : List StacItem} {bs : List BBox}
    (h : resolveBBoxes reproj bboxes? stacItems = .ok bs) :
    bs.length = stacItems.length := by
  unfold resolveBBoxes at h
  cases bboxes? with
  | none => exact build_bboxes_length h
  | some bs0 =>
    change (if bs0.length ≠ stacItems.length then
        Except.error (BuildError.lengthMismatch "bboxes" bs0.length stacItems.length)
      else Except.ok bs0) = Except.ok bs at h
    by_cases hl : bs0.length ≠ stacItems.length
    · rw [if_pos hl] at h; cases h
    · rw [if_neg hl] at h; cases h; exact Classical.not_not.mp hl

theorem resolveShapes_length {shapes? : Option (List (ℤ × ℤ))}
    {stacItems : List StacItem} {ss : List (ℤ × ℤ)}
    (h : resolveShapes shapes? stacItems = .ok ss) :
    ss.length = stacItems.length := by
  unfold resolveShapes at h
  cases shapes? with
  | none => exact mapME_ok_length h
  | some ss0 =>
    change (if ss0.length ≠ stacItems.length then
        Except.error (BuildError.lengthMismatch "shapes" ss0.length stacItems.length)
      else Except.ok ss0) = Except.ok ss at h
    by_cases hl : ss0.length ≠ stacItems.length
    · rw [if_pos hl] at h; cases h
    · rw [if_neg hl] at h; cases h; exact Classical.not_not.mp hl

/-! ### Inversion of a successful build -/

theorem build_vrt_ok {reproj : ℤ → BBox → BBox} {stacItems : List StacItem}
    {crs? : Option ℤ} {resX? resY? : Option ℚ} {shapes? : Option (List (ℤ × ℤ))}
    {bboxes? : Option (List BBox)} {dataType : String} {blockW blockH : ℤ}
    {prefixing : Bool} {d : VRTDataset}
    (h : build_vrt reproj stacItems crs? resX? resY? shapes? bboxes?
      dataType blockW blockH prefixing = .ok d) :
    ∃ i0 rest crsCode rx ry bs ss image0 checked,
      stacItems = i0 :: rest ∧
      resolveCrs crs? i0 = .ok crsCode ∧
      resolveRes resX? resY? i0 = .ok (rx, ry) ∧
      resolveBBoxes (reproj crsCode) bboxes? stacItems = .ok bs ∧
      resolveShapes shapes? stacItems = .ok ss ∧
      (build_transform (build_bbox bs) rx ry).det ≠ 0 ∧
      i0.asset? = some image0 ∧
      checkItems crsCode image0.eoBands.length 0 (stacItems.zip (bs.zip ss)) = .ok checked ∧
      d = mkDataset crsCode rx ry bs dataType blockW blockH prefixing image0 checked := by
  cases stacItems with
  | nil => rw [build_vrt] at h; cases h
  | cons i0 rest =>
    rw [build_vrt] at h
    cases hcrs : resolveCrs crs? i0 with
    | error err => rw [hcrs] at h; cases h
    | ok crsCode =>
      simp only [hcrs] at h
      cases hres : resolveRes resX? resY? i0 with
      | error err => rw [hres] at h; cases h
      | ok res =>
        obtain ⟨rx, ry⟩ := res
        simp only [hres] at h
        cases hbs : resolveBBoxes (reproj crsCode) bboxes? (i0 :: rest) with
        | error err => rw [hbs] at h; cases h
        | ok bs =>
          simp only [hbs] at h
          cases hss : resolveShapes shapes? (i0 :: rest) with
          | error err => rw [hss] at h; cases h
          | ok ss =>
            simp only [hss] at h
            simp only [assemble] at h
            by_cases hdet : (build_transform (build_bbox bs) rx ry).det = 0
            · rw [if_pos hdet] at h; cases h
            · rw [if_neg hdet] at h
              cases hasset : i0.asset? with
              | none => rw [hasset] at h; cases h
              | some image0 =>
                simp only [hasset] at h
                cases hchk : checkItems crsCode image0.eoBands.length 0
                    ((i0 :: rest).zip (bs.zip ss)) with
                | error err => rw [hchk] at h; cases h
                | ok checked =>
                  simp only [hchk] at h
                  cases h
                  exact ⟨i0, rest, crsCode, rx, ry, bs, ss, image0, checked, rfl, hcrs, hres,
                    hbs, rfl, hdet, hasset, hchk, rfl⟩

/-- Every SimpleSource of a successful build is the mkSource record of some
item of the collection, placed at a bounding box belonging to the resolved
bounding-box list, under the shared output transform. -/
theorem build_vrt_ok_sources {reproj : ℤ → BBox → BBox} {stacItems : List StacItem}
    {crs? : Option ℤ} {resX? resY? : Option ℚ} {shapes? : Option (List (ℤ × ℤ))}
    {bboxes? : Option (List BBox)} {dataType : String} {blockW blockH : ℤ}
    {prefixing : Bool} {d : VRTDataset}
    (h : build_vrt reproj stacItems crs? resX? resY? shapes? bboxes?
      dataType blockW blockH prefixing = .ok d)
    {band : RasterBand} (hband : band ∈ d.rasterBands)
    {s : SimpleSource} (hs : s ∈ band.sources) :
    ∃ i0 rest crsCode rx ry bs it image bbox sh j,
      stacItems = i0 :: rest ∧
      resolveCrs crs? i0 = .ok crsCode ∧
      resolveRes resX? resY? i0 = .ok (rx, ry) ∧
      resolveBBoxes (reproj crsCode) bboxes? stacItems = .ok bs ∧
      bbox ∈ bs ∧ it ∈ stacItems ∧ it.asset? = some image ∧
      d.geoTransform = build_transform (build_bbox bs) rx ry ∧
      s = mkSource prefixing dataType blockW blockH
        (build_transform (build_bbox bs) rx ry).inv image bbox sh j := by
  obtain ⟨i0, rest, crsCode, rx, ry, bs, ss, image0, checked, hitems, hcrs, hres, hbs, hss,
    hdet, hasset, hchk, hd⟩ := build_vrt_ok h
  subst hd
  simp only [mkDataset] at hband hs ⊢
  obtain ⟨j0, hbsrc⟩ := renderBands_mem hband
  rw [hbsrc, range_map_getD] at hs
  by_cases hj0 : j0 < image0.eoBands.length
  · rw [if_pos hj0] at hs
    rcases List.mem_filterMap.mp hs with ⟨entry, hentry, hif⟩
    by_cases hband2 : j0 < entry.1.eoBands.length
    · rw [if_pos hband2] at hif
      cases hif
      obtain ⟨z, hz, hzasset, hze, _⟩ := checkItems_ok_mem hchk entry hentry
      obtain ⟨zit, zp⟩ := z
      obtain ⟨zb, zsh⟩ := zp
      have hmem := List.of_mem_zip hz
      have hmem2 := List.of_mem_zip hmem.2
      refine ⟨i0, rest, crsCode, rx, ry, bs, zit, entry.1, entry.2.1, entry.2.2, j0 + 1,
        hitems, hcrs, hres, hbs, ?_, hmem.1, hzasset, rfl, rfl⟩
      have : entry.2.1 = zb := by rw [hze]
      rw [this]
      exact hmem2.1
    · rw [if_neg hband2] at hif
      cases hif
  · rw [if_neg hj0] at hs
    cases hs

/-- C8: in every successful build with positive resolutions, every emitted
DstRect offset is non-negative, because the mosaic extent takes the minimum
left and maximum top over exactly the bounding boxes used to place the
items, so the pre-truncation offsets are already non-negative. -/
theorem c8_offsets_nonneg {reproj : ℤ → BBox → BBox} {stacItems : List StacItem}
    {crs? : Option ℤ} {rx ry : ℚ} {shapes? : Option (List (ℤ × ℤ))}
    {bboxes? : Option (List BBox)} {dataType : String} {blockW blockH : ℤ}
    {prefixing : Bool} {d : VRTDataset}
    (hrx : 0 < rx) (hry : 0 < ry)
    (h : build_vrt reproj stacItems crs? (some rx) (some ry) shapes? bboxes?
      dataType blockW blockH prefixing = .ok d) :
    ∀ band ∈ d.rasterBands, ∀ s ∈ band.sources, 0 ≤ s.xOff ∧ 0 ≤ s.yOff := by
  intro band hband s hs
  obtain ⟨i0, rest, crsCode, rx2, ry2, bs, it, image, bbox, sh, j, hitems, hcrs, hres, hbs,
    hbbox, hit, hasset, hgt, hsrc⟩ := build_vrt_ok_sources h hband hs
  simp only [resolveRes, Except.ok.injEq, Prod.mk.injEq] at hres
  obtain ⟨hx2, hy2⟩ := hres
  subst hx2
  subst hy2
  subst hsrc
  have hinv := build_transform_inv_app (build_bbox bs) rx ry (ne_of_gt hrx) (ne_of_gt hry)
    (bbox.left, bbox.top)
  simp only [mkSource, hinv]
  have hL : (build_bbox bs).left ≤ bbox.left := build_bbox_left_le hbbox
  have hT : bbox.top ≤ (build_bbox bs).top := build_bbox_top_ge hbbox
  constructor
  · exact pyInt_nonneg (div_nonneg (by linarith) (le_of_lt hrx))
  · exact pyInt_nonneg (div_nonneg (by linarith) (le_of_lt hry))

set_option maxRecDepth 8000 in
/-- Witness for C8 at a concrete single-item build. -/
theorem c8_offsets_nonneg_witness :
    0 ≤ (SimpleSource.mk "u" 1 7 5 "Byte" 512 512 0 0).xOff ∧
      0 ≤ (SimpleSource.mk "u" 1 7 5 "Byte" 512 512 0 0).yOff := by
  have hb : build_vrt (fun _ b => b)
      [{ id := "w", bbox? := none, epsg? := none, projBBox? := none, projShape? := none
       , projTransform? := none
       , asset? := some { href := "u", eoBands := [{ name := "gray" }] } }]
      (some 1) (some 1) (some 1) (some [(5, 7)])
      (some [{ left := 0, bottom := 0, right := 2, top := 3 }]) "Byte" 512 512 true
      = Except.ok
        (VRTDataset.mk 2 3 1 (Affine.mk 1 0 0 0 (-1) 3)
          [RasterBand.mk "Byte" 1 "gray" [SimpleSource.mk "u" 1 7 5 "Byte" 512 512 0 0]]) := by
    with_unfolding_all decide
  exact c8_offsets_nonneg (by with_unfolding_all decide) (by with_unfolding_all decide) hb
    (RasterBand.mk "Byte" 1 "gray" [SimpleSource.mk "u" 1 7 5 "Byte" 512 512 0 0])
    (List.Mem.head _)
    (SimpleSource.mk "u" 1 7 5 "Byte" 512 512 0 0)
    (List.Mem.head _)

/-- C3: for every source of a successful build with positive supplied
resolutions, the placement offset equals the int() truncation of the inverse
output transform applied to the left-top corner of the items bounding box,
and applying the output transform back to the offset lands strictly within
one resolution unit (res_x horizontally, res_y vertically) of that corner. -/
theorem c3_offset_correct {reproj : ℤ → BBox → BBox} {stacItems : List StacItem}
    {crs? : Option ℤ} {rx ry : ℚ} {shapes? : Option (List (ℤ × ℤ))}
    {bboxes? : Option (List BBox)} {dataType : String} {blockW blockH : ℤ}
    {prefixing : Bool} {d : VRTDataset}
    (hrx : 0 < rx) (hry : 0 < ry)
    (h : build_vrt reproj stacItems crs? (some rx) (some ry) shapes? bboxes?
      dataType blockW blockH prefixing = .ok d) :
    ∀ band ∈ d.rasterBands, ∀ s ∈ band.sources,
      ∃ crsCode bs bbox,
        resolveBBoxes (reproj crsCode) bboxes? stacItems = .ok bs ∧ bbox ∈ bs ∧
        s.xOff = pyInt ((d.geoTransform.inv.app (bbox.left, bbox.top)).1) ∧
        s.yOff = pyInt ((d.geoTransform.inv.app (bbox.left, bbox.top)).2) ∧
        |(d.geoTransform.app ((s.xOff : ℚ), (s.yOff : ℚ))).1 - bbox.left| < rx ∧
        |(d.geoTransform.app ((s.xOff : ℚ), (s.yOff : ℚ))).2 - bbox.top| < ry := by
  intro band hband s hs
  obtain ⟨i0, rest, crsCode, rx2, ry2, bs, it, image, bbox, sh, j, hitems, hcrs, hres, hbs,
    hbbox, hit, hasset, hgt, hsrc⟩ := build_vrt_ok_sources h hband hs
  simp only [resolveRes, Except.ok.injEq, Prod.mk.injEq] at hres
  obtain ⟨hx2, hy2⟩ := hres
  subst hx2
  subst hy2
  refine ⟨crsCode, bs, bbox, hbs, hbbox, ?_⟩
  have hinv := build_transform_inv_app (build_bbox bs) rx ry (ne_of_gt hrx) (ne_of_gt hry)
    (bbox.left, bbox.top)
  have hL : (build_bbox bs).left ≤ bbox.left := build_bbox_left_le hbbox
  have hT : bbox.top ≤ (build_bbox bs).top := build_bbox_top_ge hbbox
  have hqx0 : 0 ≤ (bbox.left - (build_bbox bs).left) / rx :=
    div_nonneg (by linarith) hrx.le
  have hqy0 : 0 ≤ ((build_bbox bs).top - bbox.top) / ry :=
    div_nonneg (by linarith) hry.le
  have hmulx : rx * ((bbox.left - (build_bbox bs).left) / rx) =
      bbox.left - (build_bbox bs).left := by
    field_simp
  have hmuly : ry * (((build_bbox bs).top - bbox.top) / ry) =
      (build_bbox bs).top - bbox.top := by
    field_simp
  have hpx1 := pyInt_le hqx0
  have hpx2 := lt_pyInt_add_one hqx0
  have hpy1 := pyInt_le hqy0
  have hpy2 := lt_pyInt_add_one hqy0
  subst hsrc
  rw [hgt]
  simp only [mkSource, hinv, build_transform_app]
  refine ⟨trivial, trivial, ?_, ?_⟩
  · rw [abs_lt]
    constructor <;> nlinarith
  · rw [abs_lt]
    constructor <;> nlinarith

set_option maxRecDepth 8000 in
/-- Witness for C3 at a concrete two-item build, instantiated at the second
items source record, whose offset is (1, 0). -/
theorem c3_offset_correct_witness :
    ∃ (crsCode : ℤ) (bs : List BBox) (bbox : BBox),
      resolveBBoxes (fun b => b) (some [BBox.mk 0 0 2 3, BBox.mk 1 1 2 3])
        [StacItem.mk "a" none none none none none (some (Asset.mk "u" [EoBand.mk "gray"])),
         StacItem.mk "b" none none none none none (some (Asset.mk "v" [EoBand.mk "gray"]))]
        = .ok bs ∧ bbox ∈ bs ∧
      (1 : ℤ) = pyInt (((Affine.mk 1 0 0 0 (-1) 3).inv.app (bbox.left, bbox.top)).1) ∧
      (0 : ℤ) = pyInt (((Affine.mk 1 0 0 0 (-1) 3).inv.app (bbox.left, bbox.top)).2) ∧
      |((Affine.mk 1 0 0 0 (-1) 3).app (((1 : ℤ) : ℚ), ((0 : ℤ) : ℚ))).1 - bbox.left| < 1 ∧
      |((Affine.mk 1 0 0 0 (-1) 3).app (((1 : ℤ) : ℚ), ((0 : ℤ) : ℚ))).2 - bbox.top| < 1 := by
  have hb : build_vrt (fun _ b => b)
      [StacItem.mk "a" none none none none none (some (Asset.mk "u" [EoBand.mk "gray"])),
       StacItem.mk "b" none none none none none (some (Asset.mk "v" [EoBand.mk "gray"]))]
      (some 1) (some 1) (some 1) (some [(3, 2), (2, 1)])
      (some [BBox.mk 0 0 2 3, BBox.mk 1 1 2 3]) "Byte" 512 512 true
      = Except.ok
        (VRTDataset.mk 2 3 1 (Affine.mk 1 0 0 0 (-1) 3)
          [RasterBand.mk "Byte" 1 "gray"
            [SimpleSource.mk "u" 1 2 3 "Byte" 512 512 0 0,
             SimpleSource.mk "v" 1 1 2 "Byte" 512 512 1 0]]) := by
    with_unfolding_all decide
  exact c3_offset_correct (by with_unfolding_all decide) (by with_unfolding_all decide) hb
    (RasterBand.mk "Byte" 1 "gray"
      [SimpleSource.mk "u" 1 2 3 "Byte" 512 512 0 0,
       SimpleSource.mk "v" 1 1 2 "Byte" 512 512 1 0])
    (List.Mem.head _)
    (SimpleSource.mk "v" 1 1 2 "Byte" 512 512 1 0)
    (List.Mem.tail _ (List.Mem.head _))

theorem pyStartsWith_http_of_scheme {u : String} (h : hasHttpScheme u = true) :
    pyStartsWith u "http" = true := by
  unfold hasHttpScheme at h
  rw [Bool.or_eq_true] at h
  unfold pyStartsWith at h ⊢
  rw [List.isPrefixOf_iff_prefix]
  rcases h with h | h <;> rw [List.isPrefixOf_iff_prefix] at h
  · exact List.IsPrefix.trans (List.isPrefixOf_iff_prefix.mp (by decide)) h
  · exact List.IsPrefix.trans (List.isPrefixOf_iff_prefix.mp (by decide)) h

/-- C7 (amended): with add_prefix enabled, every emitted source URL is its
items asset href with /vsicurl/ prepended exactly when the href starts with
the literal text http.  Every href with a true HTTP(S) scheme is therefore
prefixed, but so is any other href that merely starts with the four
characters http. -/
theorem c7_url_rewriting {reproj : ℤ → BBox → BBox} {stacItems : List StacItem}
    {crs? : Option ℤ} {resX? resY? : Option ℚ} {shapes? : Option (List (ℤ × ℤ))}
    {bboxes? : Option (List BBox)} {dataType : String} {blockW blockH : ℤ}
    {d : VRTDataset}
    (h : build_vrt reproj stacItems crs? resX? resY? shapes? bboxes?
      dataType blockW blockH true = .ok d) :
    ∀ band ∈ d.rasterBands, ∀ s ∈ band.sources,
      ∃ it ∈ stacItems, ∃ image, it.asset? = some image ∧
        s.url = (if pyStartsWith image.href "http" then "/vsicurl/" ++ image.href
                 else image.href) ∧
        (hasHttpScheme image.href = true → s.url = "/vsicurl/" ++ image.href) := by
  intro band hband s hs
  obtain ⟨i0, rest, crsCode, rx2, ry2, bs, it, image, bbox, sh, j, hitems, hcrs, hres, hbs,
    hbbox, hit, hasset, hgt, hsrc⟩ := build_vrt_ok_sources h hband hs
  subst hsrc
  refine ⟨it, hit, image, hasset, ?_, ?_⟩
  · simp only [mkSource, Bool.true_and]
  · intro hscheme
    simp only [mkSource, Bool.true_and, pyStartsWith_http_of_scheme hscheme, if_true]

set_option maxRecDepth 8000 in
/-- C7 counterexample: the href httpdata/x.tif carries no HTTP(S) scheme (it
is a relative local path) yet the emitted URL gains the /vsicurl/ marker,
because the code tests only str.startswith http. -/
theorem c7_counterexample :
    hasHttpScheme "httpdata/x.tif" = false ∧
    (build_vrt (fun _ b => b)
      [StacItem.mk "a" none none none none none
        (some (Asset.mk "httpdata/x.tif" [EoBand.mk "gray"]))]
      (some 1) (some 1) (some 1) (some [(1, 1)]) (some [BBox.mk 0 0 1 1])
      "Byte" 512 512 true).toOption.map
        (fun d => d.rasterBands.map (fun band => band.sources.map SimpleSource.url))
      = some [["/vsicurl/httpdata/x.tif"]] := by
  constructor
  · decide
  · with_unfolding_all decide

set_option maxRecDepth 8000 in
/-- Witness for C7 at a concrete build whose href has a real HTTP scheme. -/
theorem c7_url_rewriting_witness :
    ∃ it ∈ [StacItem.mk "a" none none none none none
        (some (Asset.mk "http://h/x.tif" [EoBand.mk "gray"]))], ∃ image : Asset,
      it.asset? = some image ∧
      (SimpleSource.mk "/vsicurl/http://h/x.tif" 1 1 1 "Byte" 512 512 0 0).url =
        (if pyStartsWith image.href "http" then "/vsicurl/" ++ image.href
         else image.href) ∧
      (hasHttpScheme image.href = true →
        (SimpleSource.mk "/vsicurl/http://h/x.tif" 1 1 1 "Byte" 512 512 0 0).url =
          "/vsicurl/" ++ image.href) := by
  have hb : build_vrt (fun _ b => b)
      [StacItem.mk "a" none none none none none
        (some (Asset.mk "http://h/x.tif" [EoBand.mk "gray"]))]
      (some 1) (some 1) (some 1) (some [(1, 1)]) (some [BBox.mk 0 0 1 1])
      "Byte" 512 512 true
      = Except.ok (VRTDataset.mk 1 1 1 (Affine.mk 1 0 0 0 (-1) 1)
          [RasterBand.mk "Byte" 1 "gray"
            [SimpleSource.mk "/vsicurl/http://h/x.tif" 1 1 1 "Byte" 512 512 0 0]]) := by
    with_unfolding_all decide
  exact c7_url_rewriting hb
    (RasterBand.mk "Byte" 1 "gray"
      [SimpleSource.mk "/vsicurl/http://h/x.tif" 1 1 1 "Byte" 512 512 0 0])
    (List.Mem.head _)
    (SimpleSource.mk "/vsicurl/http://h/x.tif" 1 1 1 "Byte" 512 512 0 0)
    (List.Mem.head _)

/-- C2 (amended): the ColorInterp label of the n-th band block of a
successful build is the name of the LAST items n-th band: the Python loop
variable image still holds the last items asset when the band-rendering
loop runs, so band labels (and the number of rendered band blocks) come
from the last item, not the first. -/
theorem c2_labels_from_last {reproj : ℤ → BBox → BBox} {stacItems : List StacItem}
    {crs? : Option ℤ} {resX? resY? : Option ℚ} {shapes? : Option (List (ℤ × ℤ))}
    {bboxes? : Option (List BBox)} {dataType : String} {blockW blockH : ℤ}
    {prefixing : Bool} {d : VRTDataset}
    (h : build_vrt reproj stacItems crs? resX? resY? shapes? bboxes?
      dataType blockW blockH prefixing = .ok d) :
    ∃ itl a, stacItems.getLast? = some itl ∧ itl.asset? = some a ∧
      d.rasterBands.map RasterBand.colorInterp = a.eoBands.map EoBand.name := by
  obtain ⟨i0, rest, crsCode, rx, ry, bs, ss, image0, checked, hitems, hcrs, hres, hbs, hss,
    hdet, hasset, hchk, hd⟩ := build_vrt_ok h
  subst hitems
  subst hd
  have hlbs : bs.length = (i0 :: rest).length := resolveBBoxes_length hbs
  have hlss : ss.length = (i0 :: rest).length := resolveShapes_length hss
  obtain ⟨itl, hitl⟩ : ∃ itl, (i0 :: rest).getLast? = some itl := by
    cases hgl : (i0 :: rest).getLast? with
    | none => rw [List.getLast?_eq_none_iff] at hgl; cases hgl
    | some itl => exact ⟨itl, rfl⟩
  obtain ⟨bl, hbl⟩ : ∃ bl, bs.getLast? = some bl := by
    cases hgl : bs.getLast? with
    | none =>
      rw [List.getLast?_eq_none_iff] at hgl
      rw [hgl] at hlbs
      cases hlbs
    | some bl => exact ⟨bl, rfl⟩
  obtain ⟨sl, hsl⟩ : ∃ sl, ss.getLast? = some sl := by
    cases hgl : ss.getLast? with
    | none =>
      rw [List.getLast?_eq_none_iff] at hgl
      rw [hgl] at hlss
      cases hlss
    | some sl => exact ⟨sl, rfl⟩
  have hzlast1 : (bs.zip ss).getLast? = some (bl, sl) :=
    zip_getLast? (by rw [hlbs, hlss]) hbl hsl
  have hzlast : ((i0 :: rest).zip (bs.zip ss)).getLast? = some (itl, bl, sl) :=
    zip_getLast? (by rw [List.length_zip, hlbs, hlss]; simp) hitl hzlast1
  have hassets := checkItems_ok_assets hchk
  have hlasteq := congrArg List.getLast? hassets
  rw [List.getLast?_map, List.getLast?_map, hzlast] at hlasteq
  cases hel : checked.getLast? with
  | none =>
    rw [hel] at hlasteq
    cases hlasteq
  | some el =>
    rw [hel] at hlasteq
    simp only [Option.map_some'] at hlasteq
    have hfold := foldl_const_getLast (fun entry => entry.1) hel image0
    refine ⟨itl, el.1, hitl, ?_, ?_⟩
    · injection hlasteq with h2
      exact h2.symm
    · simp only [mkDataset, hfold, renderBands_colorInterp]

set_option maxRecDepth 8000 in
/-- C2 counterexample: two builds over inputs that differ only in the band
name of the second (non-first) item emit different ColorInterp labels, and
the emitted label follows the second items band name, not the firsts. -/
theorem c2_counterexample :
    (build_vrt (fun _ b => b)
      [StacItem.mk "f" none none none none none (some (Asset.mk "w" [EoBand.mk "red"])),
       StacItem.mk "b" none none none none none (some (Asset.mk "v" [EoBand.mk "red"]))]
      (some 1) (some 1) (some 1) (some [(1, 1), (1, 1)])
      (some [BBox.mk 0 0 1 1, BBox.mk 0 0 1 1]) "Byte" 512 512 true).toOption.map
        (fun d => d.rasterBands.map RasterBand.colorInterp) = some ["red"] ∧
    (build_vrt (fun _ b => b)
      [StacItem.mk "f" none none none none none (some (Asset.mk "w" [EoBand.mk "red"])),
       StacItem.mk "b" none none none none none (some (Asset.mk "v" [EoBand.mk "blue"]))]
      (some 1) (some 1) (some 1) (some [(1, 1), (1, 1)])
      (some [BBox.mk 0 0 1 1, BBox.mk 0 0 1 1]) "Byte" 512 512 true).toOption.map
        (fun d => d.rasterBands.map RasterBand.colorInterp) = some ["blue"] := by
  constructor
  · with_unfolding_all decide
  · with_unfolding_all decide

set_option maxRecDepth 8000 in
/-- Witness for the amended C2 at a concrete two-item build whose last item
carries the band name blue. -/
theorem c2_labels_from_last_witness :
    ∃ itl a,
      [StacItem.mk "f" none none none none none (some (Asset.mk "w" [EoBand.mk "red"])),
       StacItem.mk "b" none none none none none
         (some (Asset.mk "v" [EoBand.mk "blue"]))].getLast? = some itl ∧
      itl.asset? = some a ∧
      (VRTDataset.mk 1 1 1 (Affine.mk 1 0 0 0 (-1) 1)
        [RasterBand.mk "Byte" 1 "blue"
          [SimpleSource.mk "w" 1 1 1 "Byte" 512 512 0 0,
           SimpleSource.mk "v" 1 1 1 "Byte" 512 512 0 0]]).rasterBands.map
        RasterBand.colorInterp = a.eoBands.map EoBand.name := by
  have hb : build_vrt (fun _ b => b)
      [StacItem.mk "f" none none none none none (some (Asset.mk "w" [EoBand.mk "red"])),
       StacItem.mk "b" none none none none none (some (Asset.mk "v" [EoBand.mk "blue"]))]
      (some 1) (some 1) (some 1) (some [(1, 1), (1, 1)])
      (some [BBox.mk 0 0 1 1, BBox.mk 0 0 1 1]) "Byte" 512 512 true
      = Except.ok (VRTDataset.mk 1 1 1 (Affine.mk 1 0 0 0 (-1) 1)
          [RasterBand.mk "Byte" 1 "blue"
            [SimpleSource.mk "w" 1 1 1 "Byte" 512 512 0 0,
             SimpleSource.mk "v" 1 1 1 "Byte" 512 512 0 0]]) := by
    with_unfolding_all decide
  exact c2_labels_from_last hb

/-- C1 (amended): the bounding-box derivation mode is decided once for the
whole collection by the FIRST item: if the first item carries proj:bbox,
every items proj:bbox is used verbatim (and the derivation fails with
KeyError if any later item lacks one); if the first item does not, every
items native bbox is reprojected, even for items that do carry proj:bbox. -/
theorem c1_first_item_decides {reproj : BBox → BBox} {stacItems : List StacItem}
    {i0 : StacItem} {rest : List StacItem} (hitems : stacItems = i0 :: rest)
    {out : List BBox} (h : build_bboxes reproj stacItems = .ok out) :
    ((i0.projBBox?).isSome →
      ∀ p ∈ stacItems.zip out, p.1.projBBox? = some p.2) ∧
    (i0.projBBox? = none →
      ∀ p ∈ stacItems.zip out, ∃ nb, p.1.bbox? = some nb ∧ p.2 = reproj nb) := by
  subst hitems
  unfold build_bboxes at h
  change (if (i0.projBBox?).isSome then mapME projBBoxOf (i0 :: rest)
    else mapME (nativeBBoxOf reproj) (i0 :: rest)) = Except.ok out at h
  constructor
  · intro hp p hmem
    rw [if_pos hp] at h
    have hpz := mapME_ok_zip h p hmem
    unfold projBBoxOf at hpz
    cases hpb : p.1.projBBox? with
    | none => rw [hpb] at hpz; cases hpz
    | some b =>
      rw [hpb] at hpz
      injection hpz with h2
      exact congrArg some h2
  · intro hp p hmem
    rw [if_neg (by rw [hp]; simp)] at h
    have hpz := mapME_ok_zip h p hmem
    unfold nativeBBoxOf at hpz
    cases hnb : p.1.bbox? with
    | none => rw [hnb] at hpz; cases hpz
    | some nb =>
      rw [hnb] at hpz
      injection hpz with h2
      exact ⟨nb, rfl, h2.symm⟩

/-- C1 counterexample: the first item carries proj:bbox and the second
carries only a native EPSG:4326 bbox.  The per-item rule of the spec
succeeds, reprojecting only the second item, but the code commits to the
proj:bbox path from item 0 alone and fails with KeyError on item 1. -/
theorem c1_counterexample :
    build_bboxes (fun b => b)
      [StacItem.mk "a" none none (some (BBox.mk 0 0 2 2)) none none none,
       StacItem.mk "b" (some (BBox.mk 0 0 1 1)) none none none none none]
      = .error (.keyError "proj:bbox") ∧
    specPerItemBBoxes (fun b => b)
      [StacItem.mk "a" none none (some (BBox.mk 0 0 2 2)) none none none,
       StacItem.mk "b" (some (BBox.mk 0 0 1 1)) none none none none none]
      = .ok [BBox.mk 0 0 2 2, BBox.mk 0 0 1 1] := by
  constructor
  · with_unfolding_all decide
  · with_unfolding_all decide

/-- Witness for the amended C1: a second item whose proj:bbox is consulted
because the first item carries one. -/
theorem c1_first_item_decides_witness :
    (StacItem.mk "b" none none (some (BBox.mk 1 1 3 3)) none none none).projBBox?
      = some (BBox.mk 1 1 3 3) := by
  have hb : build_bboxes (fun b => b)
      [StacItem.mk "a" none none (some (BBox.mk 0 0 2 2)) none none none,
       StacItem.mk "b" none none (some (BBox.mk 1 1 3 3)) none none none]
      = .ok [BBox.mk 0 0 2 2, BBox.mk 1 1 3 3] := by
    with_unfolding_all decide
  exact (c1_first_item_decides rfl hb).1 (by decide)
    (StacItem.mk "b" none none (some (BBox.mk 1 1 3 3)) none none none, BBox.mk 1 1 3 3)
    (List.Mem.tail _ (List.Mem.head _))

/-- C6: a user-supplied bboxes list (and, by the same rule, a shapes list)
whose length k differs from the item count N makes build_vrt fail with a
LengthMismatch error carrying both lengths, whose message contains the text
k != N, and no descriptor is produced. -/
theorem c6_length_mismatch {reproj : ℤ → BBox → BBox} {i0 : StacItem} {rest : List StacItem}
    {c : ℤ} {rx ry : ℚ} {dataType : String} {blockW blockH : ℤ} {prefixing : Bool} :
    (∀ (bs : List BBox) (shapes? : Option (List (ℤ × ℤ))),
      bs.length ≠ (i0 :: rest).length →
      build_vrt reproj (i0 :: rest) (some c) (some rx) (some ry) shapes? (some bs)
          dataType blockW blockH prefixing
        = .error (.lengthMismatch "bboxes" bs.length (i0 :: rest).length)) ∧
    (∀ (bs : List BBox) (ss : List (ℤ × ℤ)),
      bs.length = (i0 :: rest).length → ss.length ≠ (i0 :: rest).length →
      build_vrt reproj (i0 :: rest) (some c) (some rx) (some ry) (some ss) (some bs)
          dataType blockW blockH prefixing
        = .error (.lengthMismatch "shapes" ss.length (i0 :: rest).length)) ∧
    (∀ (which : String) (k n : ℕ), ∃ pre post : String,
      (BuildError.lengthMismatch which k n).message =
        pre ++ (toString k ++ " != " ++ toString n) ++ post) := by
  refine ⟨?_, ?_, ?_⟩
  · intro bs shapes? hlen
    have h1 : resolveBBoxes (reproj c) (some bs) (i0 :: rest)
        = .error (.lengthMismatch "bboxes" bs.length (i0 :: rest).length) := by
      unfold resolveBBoxes
      change (if bs.length ≠ (i0 :: rest).length then
          Except.error (BuildError.lengthMismatch "bboxes" bs.length (i0 :: rest).length)
        else Except.ok bs) = _
      rw [if_pos hlen]
    simp only [build_vrt, resolveCrs, resolveRes, h1]
  · intro bs ss hbs hlen
    have h1 : resolveBBoxes (reproj c) (some bs) (i0 :: rest) = .ok bs := by
      unfold resolveBBoxes
      change (if bs.length ≠ (i0 :: rest).length then
          Except.error (BuildError.lengthMismatch "bboxes" bs.length (i0 :: rest).length)
        else Except.ok bs) = _
      rw [if_neg (fun hc => hc hbs)]
    have h2 : resolveShapes (some ss) (i0 :: rest)
        = .error (.lengthMismatch "shapes" ss.length (i0 :: rest).length) := by
      unfold resolveShapes
      change (if ss.length ≠ (i0 :: rest).length then
          Except.error (BuildError.lengthMismatch "shapes" ss.length (i0 :: rest).length)
        else Except.ok ss) = _
      rw [if_pos hlen]
    simp only [build_vrt, resolveCrs, resolveRes, h1, h2]
  · intro which k n
    refine ⟨"Number of user-provided " ++ which ++
      " does not match the number of stac_items (", ")", ?_⟩
    simp only [BuildError.message, String.append_assoc]

set_option maxRecDepth 8000 in
/-- Witness for C6: supplying two boxes for one item fails with the
2 != 1 length mismatch, matching the repository test. -/
theorem c6_length_mismatch_witness :
    build_vrt (fun (_ : ℤ) (b : BBox) => b)
      [StacItem.mk "a" none none none none none none]
      (some 26917) (some 1) (some 1) none
      (some [BBox.mk 1 2 3 4, BBox.mk 5 6 7 8]) "Byte" 512 512 true
      = .error (.lengthMismatch "bboxes" 2 1) ∧
    ∃ pre post : String,
      (BuildError.lengthMismatch "bboxes" 2 1).message =
        pre ++ (toString 2 ++ " != " ++ toString 1) ++ post := by
  constructor
  · exact (@c6_length_mismatch (fun _ b => b) (StacItem.mk "a" none none none none none none)
      [] 26917 1 1 "Byte" 512 512 true).1
      [BBox.mk 1 2 3 4, BBox.mk 5 6 7 8] none (by decide)
  · exact (@c6_length_mismatch (fun _ b => b) (StacItem.mk "a" none none none none none none)
      [] 26917 1 1 "Byte" 512 512 true).2.2 "bboxes" 2 1

theorem mem_zip_of_mem_left {α β : Type} :
    ∀ {xs : List α} {ys : List β} {x : α}, x ∈ xs → xs.length ≤ ys.length →
      ∃ y, (x, y) ∈ xs.zip ys := by
  intro xs
  induction xs with
  | nil => intro ys x hx; cases hx
  | cons a as ih =>
    intro ys x hx hlen
    cases ys with
    | nil => simp at hlen
    | cons b bsy =>
      rcases List.mem_cons.mp hx with h1 | h1
      · subst h1
        exact ⟨b, List.mem_cons_self _ _⟩
      · obtain ⟨y, hy⟩ := ih h1 (by simpa using hlen)
        exact ⟨y, List.mem_cons_of_mem _ hy⟩

/-- C5: if any item, at any position, declares a nonzero proj:epsg different
from the resolved CRS code, and the input is otherwise well-formed enough to
reach the per-item loop, then build_vrt fails (emitting no descriptor) with
a CrsMismatch error carrying the offending items identifier, its position in
the input sequence, and both conflicting CRS codes. -/
theorem c5_crs_mismatch {reproj : ℤ → BBox → BBox} {i0 : StacItem} {rest : List StacItem}
    {c : ℤ} {rx ry : ℚ} {bs : List BBox} {ss : List (ℤ × ℤ)} {a0 : Asset}
    {dataType : String} {blockW blockH : ℤ} {prefixing : Bool}
    (hdet : rx * ry ≠ 0)
    (hlbs : bs.length = (i0 :: rest).length) (hlss : ss.length = (i0 :: rest).length)
    (ha0 : i0.asset? = some a0)
    (hassets : ∀ it ∈ i0 :: rest, ∃ a, it.asset? = some a ∧
      a.eoBands.length ≤ a0.eoBands.length)
    (hbad : ∃ it ∈ i0 :: rest, ∃ code, it.epsg? = some code ∧ code ≠ 0 ∧ code ≠ c) :
    ∃ j z code, (i0 :: rest)[j]? = some z ∧ z.epsg? = some code ∧ code ≠ 0 ∧ code ≠ c ∧
      build_vrt reproj (i0 :: rest) (some c) (some rx) (some ry) (some ss) (some bs)
        dataType blockW blockH prefixing
        = .error (.crsMismatch z.id j code c) := by
  have hzlen : ((i0 :: rest).zip (bs.zip ss)).length = (i0 :: rest).length := by
    rw [List.length_zip, List.length_zip, hlbs, hlss]
    simp
  have hzassets : ∀ z ∈ (i0 :: rest).zip (bs.zip ss), ∃ a, z.1.asset? = some a ∧
      a.eoBands.length ≤ a0.eoBands.length := by
    intro z hz
    obtain ⟨zit, zp⟩ := z
    exact hassets zit (List.of_mem_zip hz).1
  have hzbad : ∃ z ∈ (i0 :: rest).zip (bs.zip ss), crsBad c z.1 ≠ none := by
    obtain ⟨it, hit, code, hcode, h0, hc⟩ := hbad
    obtain ⟨y, hy⟩ := @mem_zip_of_mem_left _ _ (i0 :: rest) (bs.zip ss) it hit
      (by simp [List.length_zip, hlbs, hlss])
    refine ⟨(it, y), hy, ?_⟩
    rw [crsBad_some_of hcode h0 hc]
    simp
  obtain ⟨j, z, code, hj, hzbad2, hcheck⟩ :=
    checkItems_finds_mismatch 0 hzassets hzbad
  obtain ⟨hepsg, h0, hc⟩ := crsBad_eq_some hzbad2
  have hjitem : (i0 :: rest)[j]? = some z.1 := by
    have := (List.getElem?_zip_eq_some.mp hj).1
    exact this
  have h1 : resolveBBoxes (reproj c) (some bs) (i0 :: rest) = .ok bs := by
    unfold resolveBBoxes
    change (if bs.length ≠ (i0 :: rest).length then
        Except.error (BuildError.lengthMismatch "bboxes" bs.length (i0 :: rest).length)
      else Except.ok bs) = _
    rw [if_neg (fun hcon => hcon hlbs)]
  have h2 : resolveShapes (some ss) (i0 :: rest) = .ok ss := by
    unfold resolveShapes
    change (if ss.length ≠ (i0 :: rest).length then
        Except.error (BuildError.lengthMismatch "shapes" ss.length (i0 :: rest).length)
      else Except.ok ss) = _
    rw [if_neg (fun hcon => hcon hlss)]
  have hdet2 : ¬(build_transform (build_bbox bs) rx ry).det = 0 := by
    rw [build_transform_det]
    intro hcon
    exact hdet (by linarith [neg_eq_zero.mp hcon])
  refine ⟨j, z.1, code, hjitem, hepsg, h0, hc, ?_⟩
  rw [Nat.zero_add] at hcheck
  simp only [build_vrt, resolveCrs, resolveRes, h1, h2, assemble, if_neg hdet2, ha0, hcheck]

set_option maxRecDepth 8000 in
/-- Witness for C5: item 1 declares EPSG 2 against resolved code 1 and is
named at position 1 in the error. -/
theorem c5_crs_mismatch_witness :
    ∃ j z code,
      [StacItem.mk "a" none (some 1) none none none
          (some (Asset.mk "u" [EoBand.mk "gray"])),
        StacItem.mk "b" none (some 2) none none none
          (some (Asset.mk "v" [EoBand.mk "gray"]))][j]? = some z ∧
      z.epsg? = some code ∧ code ≠ 0 ∧ code ≠ 1 ∧
      build_vrt (fun _ b => b)
        [StacItem.mk "a" none (some 1) none none none
          (some (Asset.mk "u" [EoBand.mk "gray"])),
         StacItem.mk "b" none (some 2) none none none
          (some (Asset.mk "v" [EoBand.mk "gray"]))]
        (some 1) (some 1) (some 1)
        (some [(1, 1), (1, 1)]) (some [BBox.mk 0 0 1 1, BBox.mk 0 0 1 1])
        "Byte" 512 512 true
        = .error (.crsMismatch z.id j code 1) := by
  exact @c5_crs_mismatch (fun _ b => b)
    (StacItem.mk "a" none (some 1) none none none
      (some (Asset.mk "u" [EoBand.mk "gray"])))
    [StacItem.mk "b" none (some 2) none none none
      (some (Asset.mk "v" [EoBand.mk "gray"]))]
    1 1 1 [BBox.mk 0 0 1 1, BBox.mk 0 0 1 1] [(1, 1), (1, 1)]
    (Asset.mk "u" [EoBand.mk "gray"]) "Byte" 512 512 true
    (by with_unfolding_all decide) (by decide) (by decide) (by decide)
    (by with_unfolding_all decide) (by with_unfolding_all decide)

theorem mapME_projBBox_all_some :
    ∀ {items : List StacItem}, (∀ it ∈ items, (it.projBBox?).isSome) →
      mapME projBBoxOf items = .ok (items.filterMap StacItem.projBBox?) := by
  intro items
  induction items with
  | nil => intro _; rfl
  | cons it rest ih =>
    intro h
    obtain ⟨b, hb⟩ := Option.isSome_iff_exists.mp (h it (List.mem_cons_self _ _))
    have h1 : projBBoxOf it = .ok b := by
      unfold projBBoxOf
      rw [hb]
    rw [mapME, h1, ih (fun w hw => h w (List.mem_cons_of_mem _ hw))]
    simp [List.filterMap_cons, hb]

theorem mapME_shape_all_some :
    ∀ {items : List StacItem}, (∀ it ∈ items, (it.projShape?).isSome) →
      mapME shapeOf items = .ok (items.filterMap StacItem.projShape?) := by
  intro items
  induction items with
  | nil => intro _; rfl
  | cons it rest ih =>
    intro h
    obtain ⟨sh, hsh⟩ := Option.isSome_iff_exists.mp (h it (List.mem_cons_self _ _))
    have h1 : shapeOf it = .ok sh := by
      unfold shapeOf
      rw [hsh]
    rw [mapME, h1, ih (fun w hw => h w (List.mem_cons_of_mem _ hw))]
    simp [List.filterMap_cons, hsh]

/-- C4 (amended): a non-empty collection whose items agree with the resolved
CRS and carry the required metadata (first item: proj:epsg and a
proj:transform with positive x-resolution and nonzero y-resolution; every
item: proj:bbox, proj:shape and an image asset with at most as many bands
as the first) yields a successful build; the emitted rasterXSize and
rasterYSize are strictly positive provided the unioned extent spans at
least one resolution unit along each axis.  Without that extent condition
the build still succeeds but can emit a zero dimension. -/
theorem c4_success_positive {reproj : ℤ → BBox → BBox} {i0 : StacItem} {rest : List StacItem}
    {c : ℤ} {a0 : Asset} {t0 t1 t2 t3 t4 t5 : ℚ} {trn : List ℚ}
    {dataType : String} {blockW blockH : ℤ} {prefixing : Bool}
    (hepsg : i0.epsg? = some c)
    (htrn : i0.projTransform? = some (t0 :: t1 :: t2 :: t3 :: t4 :: t5 :: trn))
    (ht0 : 0 < t0) (ht4 : t4 ≠ 0)
    (ha0 : i0.asset? = some a0)
    (hpb : ∀ it ∈ i0 :: rest, (it.projBBox?).isSome)
    (hshape : ∀ it ∈ i0 :: rest, (it.projShape?).isSome)
    (hassets : ∀ it ∈ i0 :: rest, ∃ a, it.asset? = some a ∧
      a.eoBands.length ≤ a0.eoBands.length)
    (hagree : ∀ it ∈ i0 :: rest, it.epsg? = none ∨ it.epsg? = some c)
    (hx : t0 ≤ (build_bbox ((i0 :: rest).filterMap StacItem.projBBox?)).right -
      (build_bbox ((i0 :: rest).filterMap StacItem.projBBox?)).left)
    (hy : |t4| ≤ (build_bbox ((i0 :: rest).filterMap StacItem.projBBox?)).top -
      (build_bbox ((i0 :: rest).filterMap StacItem.projBBox?)).bottom) :
    ∃ d, build_vrt reproj (i0 :: rest) none none none none none
        dataType blockW blockH prefixing = .ok d ∧
      0 < d.rasterXSize ∧ 0 < d.rasterYSize := by
  have hbb : build_bboxes (reproj c) (i0 :: rest)
      = .ok ((i0 :: rest).filterMap StacItem.projBBox?) := by
    unfold build_bboxes
    change (if (i0.projBBox?).isSome then mapME projBBoxOf (i0 :: rest)
      else mapME (nativeBBoxOf (reproj c)) (i0 :: rest)) = _
    rw [if_pos (hpb i0 (List.mem_cons_self _ _))]
    exact mapME_projBBox_all_some hpb
  have hres : resolveRes none none i0 = .ok (t0, |t4|) := by
    simp only [resolveRes, htrn, pyOr]
  have hdet2 : ¬(build_transform
      (build_bbox ((i0 :: rest).filterMap StacItem.projBBox?)) t0 |t4|).det = 0 := by
    rw [build_transform_det]
    intro hcon
    rcases mul_eq_zero.mp (neg_eq_zero.mp hcon) with h | h
    · exact absurd h (ne_of_gt ht0)
    · exact absurd h (abs_ne_zero.mpr ht4)
  obtain ⟨cs, hcs⟩ : ∃ cs, checkItems c a0.eoBands.length 0
      ((i0 :: rest).zip (((i0 :: rest).filterMap StacItem.projBBox?).zip
        ((i0 :: rest).filterMap StacItem.projShape?))) = .ok cs := by
    apply checkItems_ok_of
    intro z hz
    obtain ⟨zit, zp⟩ := z
    have hzit := (List.of_mem_zip hz).1
    exact ⟨crsBad_none_of_agree (hagree zit hzit), hassets zit hzit⟩
  refine ⟨mkDataset c t0 |t4| ((i0 :: rest).filterMap StacItem.projBBox?) dataType
    blockW blockH prefixing a0 cs, ?_, ?_, ?_⟩
  · simp only [build_vrt, resolveCrs, hepsg, hres, resolveBBoxes, hbb, resolveShapes,
      mapME_shape_all_some hshape, assemble, if_neg hdet2, ha0, hcs]
  · have hinv := build_transform_inv_app
      (build_bbox ((i0 :: rest).filterMap StacItem.projBBox?)) t0 |t4|
      (ne_of_gt ht0) (abs_ne_zero.mpr ht4)
      ((build_bbox ((i0 :: rest).filterMap StacItem.projBBox?)).right,
       (build_bbox ((i0 :: rest).filterMap StacItem.projBBox?)).bottom)
    simp only [mkDataset, hinv]
    exact lt_of_lt_of_le zero_lt_one (one_le_pyInt ((one_le_div ht0).mpr hx))
  · have hinv := build_transform_inv_app
      (build_bbox ((i0 :: rest).filterMap StacItem.projBBox?)) t0 |t4|
      (ne_of_gt ht0) (abs_ne_zero.mpr ht4)
      ((build_bbox ((i0 :: rest).filterMap StacItem.projBBox?)).right,
       (build_bbox ((i0 :: rest).filterMap StacItem.projBBox?)).bottom)
    simp only [mkDataset, hinv]
    exact lt_of_lt_of_le zero_lt_one
      (one_le_pyInt ((one_le_div (abs_pos.mpr ht4)).mpr hy))

set_option maxRecDepth 8000 in
/-- C4 counterexample: a fully well-formed single-item collection with a
consistent CRS whose bounding box spans only half a pixel: the build
succeeds, yet it emits rasterXSize zero, so the claimed strict positivity
fails. -/
theorem c4_counterexample :
    (build_vrt (fun _ b => b)
      [StacItem.mk "a" none (some 1) (some (BBox.mk 0 0 (1 / 2) (1 / 2)))
        (some (1, 1)) (some [1, 0, 0, 0, -1, 0])
        (some (Asset.mk "u" [EoBand.mk "gray"]))]
      none none none none none "Byte" 512 512 true).toOption.map
        VRTDataset.rasterXSize = some 0 := by
  with_unfolding_all decide

set_option maxRecDepth 8000 in
/-- Witness for the amended C4 at a concrete single-item collection whose
extent spans two pixels horizontally and three vertically. -/
theorem c4_success_positive_witness :
    ∃ d, build_vrt (fun _ b => b)
      [StacItem.mk "a" none (some 1) (some (BBox.mk 0 0 2 3)) (some (3, 2))
        (some [1, 0, 0, 0, -1, 3]) (some (Asset.mk "u" [EoBand.mk "gray"]))]
      none none none none none "Byte" 512 512 true = .ok d ∧
      0 < d.rasterXSize ∧ 0 < d.rasterYSize := by
  exact @c4_success_positive (fun _ b => b)
    (StacItem.mk "a" none (some 1) (some (BBox.mk 0 0 2 3)) (some (3, 2))
      (some [1, 0, 0, 0, -1, 3]) (some (Asset.mk "u" [EoBand.mk "gray"])))
    [] 1 (Asset.mk "u" [EoBand.mk "gray"]) 1 0 0 0 (-1) 3 []
    "Byte" 512 512 true
    (by decide) (by decide) (by with_unfolding_all decide)
    (by with_unfolding_all decide) (by decide) (by decide) (by decide)
    (by with_unfolding_all decide) (by decide)
    (by with_unfolding_all decide) (by with_unfolding_all decide)

theorem forall2_zip_right {α β : Type} {R : α → α → Prop} :
    ∀ {xs ys : List α}, List.Forall₂ R xs ys → ∀ (l : List β),
      List.Forall₂ (fun z w => R z.1 w.1 ∧ z.2 = w.2) (xs.zip l) (ys.zip l) := by
  intro xs ys h
  induction h with
  | nil => intro l; exact List.Forall₂.nil
  | @cons x y l1 l2 hxy hrest ih =>
    intro l
    cases l with
    | nil => exact List.Forall₂.nil
    | cons b bl => exact List.Forall₂.cons ⟨hxy, rfl⟩ (ih bl)

theorem checkItems_congr {crsCode : ℤ} {nBands : ℕ} :
    ∀ {zs1 zs2 : List (StacItem × BBox × (ℤ × ℤ))},
      List.Forall₂ (fun z w => obsEq z.1 w.1 ∧ z.2 = w.2) zs1 zs2 →
      ∀ (i : ℕ), checkItems crsCode nBands i zs1 = checkItems crsCode nBands i zs2 := by
  intro zs1 zs2 h
  induction h with
  | nil => intro i; rfl
  | @cons z w l1 l2 hzw hrest ih =>
    intro i
    obtain ⟨⟨hid, hepsg, hasset⟩, h2⟩ := hzw
    obtain ⟨zit, zb, zsh⟩ := z
    obtain ⟨wit, wb, wsh⟩ := w
    have hb2 : zb = wb := congrArg Prod.fst h2
    have hsh2 : zsh = wsh := congrArg Prod.snd h2
    rw [checkItems, checkItems]
    have hcb : crsBad crsCode zit = crsBad crsCode wit := by
      unfold crsBad
      rw [hepsg]
    have hca : checkAsset nBands zit = checkAsset nBands wit := by
      unfold checkAsset
      rw [hasset]
    rw [hcb, hca, hid, hb2, hsh2, ih (i + 1)]

/-- C9: when crs, res_x, res_y, bboxes and shapes are all supplied with
lengths matching the item count, the output does not depend on any items
bbox, proj:bbox, proj:shape or proj:transform fields: two item lists that
agree pointwise on id, proj:epsg and the image asset produce identical
results. -/
theorem c9_noninterference {reproj : ℤ → BBox → BBox} {items1 items2 : List StacItem}
    {c : ℤ} {rx ry : ℚ} {bs : List BBox} {ss : List (ℤ × ℤ)}
    {dataType : String} {blockW blockH : ℤ} {prefixing : Bool}
    (hobs : List.Forall₂ obsEq items1 items2)
    (hlbs : bs.length = items1.length) (hlss : ss.length = items1.length) :
    build_vrt reproj items1 (some c) (some rx) (some ry) (some ss) (some bs)
      dataType blockW blockH prefixing =
    build_vrt reproj items2 (some c) (some rx) (some ry) (some ss) (some bs)
      dataType blockW blockH prefixing := by
  cases hobs with
  | nil => rfl
  | @cons x y l1 l2 hxy hrest =>
    have hlen2 : (y :: l2).length = (x :: l1).length := by
      simp [List.Forall₂.length_eq hrest]
    have h1 : resolveBBoxes (reproj c) (some bs) (x :: l1) = .ok bs := by
      unfold resolveBBoxes
      change (if bs.length ≠ (x :: l1).length then
          Except.error (BuildError.lengthMismatch "bboxes" bs.length (x :: l1).length)
        else Except.ok bs) = _
      rw [if_neg (fun hc => hc hlbs)]
    have h2 : resolveBBoxes (reproj c) (some bs) (y :: l2) = .ok bs := by
      unfold resolveBBoxes
      change (if bs.length ≠ (y :: l2).length then
          Except.error (BuildError.lengthMismatch "bboxes" bs.length (y :: l2).length)
        else Except.ok bs) = _
      rw [if_neg (fun hc => hc (hlen2 ▸ hlbs))]
    have h3 : resolveShapes (some ss) (x :: l1) = .ok ss := by
      unfold resolveShapes
      change (if ss.length ≠ (x :: l1).length then
          Except.error (BuildError.lengthMismatch "shapes" ss.length (x :: l1).length)
        else Except.ok ss) = _
      rw [if_neg (fun hc => hc hlss)]
    have h4 : resolveShapes (some ss) (y :: l2) = .ok ss := by
      unfold resolveShapes
      change (if ss.length ≠ (y :: l2).length then
          Except.error (BuildError.lengthMismatch "shapes" ss.length (y :: l2).length)
        else Except.ok ss) = _
      rw [if_neg (fun hc => hc (hlen2 ▸ hlss))]
    simp only [build_vrt, resolveCrs, resolveRes, h1, h2, h3, h4, assemble]
    by_cases hdet : (build_transform (build_bbox bs) rx ry).det = 0
    · rw [if_pos hdet, if_pos hdet]
    · rw [if_neg hdet, if_neg hdet]
      have hasset : x.asset? = y.asset? := hxy.2.2
      have hz := forall2_zip_right (List.Forall₂.cons hxy hrest) (bs.zip ss)
      cases hax : x.asset? with
      | none =>
        rw [hax] at hasset
        rw [← hasset]
      | some ax =>
        rw [hax] at hasset
        rw [← hasset]
        simp only [checkItems_congr hz]

/-- Witness for C9: two singleton collections whose items differ only in
bbox, proj:bbox, proj:shape and proj:transform give identical results. -/
theorem c9_noninterference_witness :
    build_vrt (fun (_ : ℤ) (b : BBox) => b)
      [StacItem.mk "a" (some (BBox.mk 9 9 9 9)) (some 1) (some (BBox.mk 0 0 9 9))
        (some (7, 7)) (some [5, 0, 0, 0, -5, 0])
        (some (Asset.mk "u" [EoBand.mk "gray"]))]
      (some 1) (some 1) (some 1) (some [(1, 1)]) (some [BBox.mk 0 0 1 1])
      "Byte" 512 512 true =
    build_vrt (fun (_ : ℤ) (b : BBox) => b)
      [StacItem.mk "a" none (some 1) none none none
        (some (Asset.mk "u" [EoBand.mk "gray"]))]
      (some 1) (some 1) (some 1) (some [(1, 1)]) (some [BBox.mk 0 0 1 1])
      "Byte" 512 512 true := by
  exact c9_noninterference
    (List.Forall₂.cons ⟨rfl, rfl, rfl⟩ List.Forall₂.nil) (by decide) (by decide)

theorem pyOr_some_zero (d : ℚ) : pyOr (some 0) d = pyOr none d := by
  simp [pyOr]

/-- C10 (amended): a supplied res_x of zero is treated like a missing res_x
only when res_y is missing: then the proj:transform branch is entered and
the truthiness test replaces the zero from the first items transform (which
must be present).  When both resolutions are supplied the branch is
skipped, proj:transform is never consulted, the zero is kept, and the build
fails on the degenerate transform. -/
theorem c10_zero_res {reproj : ℤ → BBox → BBox} {dataType : String}
    {blockW blockH : ℤ} {prefixing : Bool} :
    (∀ (stacItems : List StacItem) (crs? : Option ℤ) (shapes? : Option (List (ℤ × ℤ)))
        (bboxes? : Option (List BBox)),
      build_vrt reproj stacItems crs? (some 0) none shapes? bboxes?
          dataType blockW blockH prefixing =
        build_vrt reproj stacItems crs? none none shapes? bboxes?
          dataType blockW blockH prefixing) ∧
    (∀ (i0 : StacItem) (rest : List StacItem) (c : ℤ) (ry : ℚ)
        (bs : List BBox) (ss : List (ℤ × ℤ)),
      bs.length = (i0 :: rest).length → ss.length = (i0 :: rest).length →
      build_vrt reproj (i0 :: rest) (some c) (some 0) (some ry) (some ss) (some bs)
          dataType blockW blockH prefixing = .error .transformNotInvertible) := by
  constructor
  · intro stacItems crs? shapes? bboxes?
    cases stacItems with
    | nil => rfl
    | cons i0 rest =>
      have hresEq : resolveRes (some 0) none i0 = resolveRes none none i0 := by
        unfold resolveRes
        simp only [pyOr_some_zero]
      simp only [build_vrt, hresEq]
  · intro i0 rest c ry bs ss hlbs hlss
    have h1 : resolveBBoxes (reproj c) (some bs) (i0 :: rest) = .ok bs := by
      unfold resolveBBoxes
      change (if bs.length ≠ (i0 :: rest).length then
          Except.error (BuildError.lengthMismatch "bboxes" bs.length (i0 :: rest).length)
        else Except.ok bs) = _
      rw [if_neg (fun hc => hc hlbs)]
    have h2 : resolveShapes (some ss) (i0 :: rest) = .ok ss := by
      unfold resolveShapes
      change (if ss.length ≠ (i0 :: rest).length then
          Except.error (BuildError.lengthMismatch "shapes" ss.length (i0 :: rest).length)
        else Except.ok ss) = _
      rw [if_neg (fun hc => hc hlss)]
    have hdet : (build_transform (build_bbox bs) 0 ry).det = 0 := by
      rw [build_transform_det]
      ring
    simp only [build_vrt, resolveCrs, resolveRes, h1, h2, assemble, if_pos hdet]

set_option maxRecDepth 8000 in
/-- C10 counterexample: with res_y supplied, passing res_x = 0 aborts with a
degenerate transform, while omitting res_x succeeds by reading res_x = 2
from the first items proj:transform: zero is NOT treated like missing. -/
theorem c10_counterexample :
    build_vrt (fun _ b => b)
      [StacItem.mk "a" none (some 1) (some (BBox.mk 0 0 2 3)) (some (3, 2))
        (some [2, 0, 0, 0, -3, 0]) (some (Asset.mk "u" [EoBand.mk "gray"]))]
      (some 1) (some 0) (some 1) none none "Byte" 512 512 true
      = .error .transformNotInvertible ∧
    (build_vrt (fun _ b => b)
      [StacItem.mk "a" none (some 1) (some (BBox.mk 0 0 2 3)) (some (3, 2))
        (some [2, 0, 0, 0, -3, 0]) (some (Asset.mk "u" [EoBand.mk "gray"]))]
      (some 1) none (some 1) none none "Byte" 512 512 true).toOption.map
        VRTDataset.rasterXSize = some 1 := by
  constructor
  · with_unfolding_all decide
  · with_unfolding_all decide

/-- Witness for the amended C10: both supplied with res_x zero fails on the
degenerate transform. -/
theorem c10_zero_res_witness :
    build_vrt (fun (_ : ℤ) (b : BBox) => b)
      [StacItem.mk "a" none none none none none none]
      (some 1) (some 0) (some 1) (some [(1, 1)]) (some [BBox.mk 0 0 1 1])
      "Byte" 512 512 true = .error .transformNotInvertible := by
  exact (@c10_zero_res (fun _ b => b) "Byte" 512 512 true).2
    (StacItem.mk "a" none none none none none none) [] 1 1
    [BBox.mk 0 0 1 1] [(1, 1)] (by decide) (by decide)

end StacVrt
